import Mathlib

/-!
Shallow embedding of the driverlocation server (src/server.js and the
validated variant in src/README.md).

Timestamps are modelled as `Nat` (milliseconds since epoch); the value of
`new Date()` / the Mongoose `Date.now` default at each handler invocation is
passed in explicitly as a `now : Time` parameter.  JavaScript numbers that can
be `NaN` or absent at the socket boundary are modelled by the `Coord`
inductive; coordinates stored after `parseFloat` are rationals.
-/

namespace DriverLoc

abbrev Time := Nat

/-- A JavaScript value arriving in a `location-update` socket payload as
`lat` / `lng`: a finite number, `NaN`, or missing (`undefined`). -/
inductive Coord where
  | num (q : ℚ)
  | nan
  | missing
deriving DecidableEq

/-- JavaScript truthiness test `!v` for a coordinate value: `0`, `NaN` and
`undefined` are falsy. -/
def jsFalsy : Coord → Bool
  | .num q => q = 0
  | .nan => true
  | .missing => true

/-- JavaScript `isNaN(v)` (with coercion): `NaN` and `undefined` are NaN,
finite numbers are not. -/
def jsIsNaN : Coord → Bool
  | .num _ => false
  | .nan => true
  | .missing => true

/-- JavaScript `parseFloat` on an already-numeric value (the validated handler
only applies it after the falsy/NaN guard, so the junk values are never
reached). -/
def parseFloat : Coord → ℚ
  | .num q => q
  | .nan => 0
  | .missing => 0

/-- One document of the `Location` collection (`locationSchema` in
src/server.js): driverId, lat, lng, and the server-assigned `timestamp`
(`default: Date.now`). -/
structure LocationRec where
  driverId : String
  lat : Coord
  lng : Coord
  timestamp : Time
deriving DecidableEq

/-- The `Location` collection in insertion order (append-only). -/
abbrev PositionLog := List LocationRec

/-- Insert a record into a timestamp-descending list, keeping it before any
record with an equal or smaller timestamp (stable insertion: on ties the
record inserted for the earlier log position stays first). Models the
`$sort: \x7b timestamp: -1 \x7d` aggregation stage. -/
def insertByTs (r : LocationRec) : PositionLog → PositionLog
  | [] => [r]
  | b :: bs => if r.timestamp < b.timestamp then b :: insertByTs r bs else r :: b :: bs

/-- Sort the log by timestamp descending (stable). -/
def sortByTsDesc : PositionLog → PositionLog
  | [] => []
  | r :: rs => insertByTs r (sortByTsDesc rs)

/-- Keep the first record for each driverId, in order of first occurrence;
`seen` accumulates the driverIds already emitted. Models the
`$group: \x7b _id: $driverId, $first ... \x7d` aggregation stage. -/
def groupFirstAux (seen : List String) : PositionLog → PositionLog
  | [] => []
  | r :: rs =>
      if r.driverId ∈ seen then groupFirstAux seen rs
      else r :: groupFirstAux (r.driverId :: seen) rs

def groupFirstByDriver (l : PositionLog) : PositionLog :=
  groupFirstAux [] l

/-- `GET /api/locations` (src/server.js lines 237-258): aggregate the
`Location` collection with `$sort` by timestamp descending followed by
`$group` by driverId taking `$first` of each field. -/
def latestAll (log : PositionLog) : PositionLog :=
  groupFirstByDriver (sortByTsDesc log)

/-! ## Routes, stops and drivers (src/server.js schemas) -/

inductive StopStatus where
  | pending
  | completed
deriving DecidableEq

/-- One embedded stop document (`stopSchema`). `completedAt` is absent
(`none`) until set by a completion handler. -/
structure Stop where
  address : String
  lat : ℚ
  lng : ℚ
  sequenceOrder : Nat
  status : StopStatus
  completedAt : Option Time
deriving DecidableEq

inductive RouteStatus where
  | pending
  | active
  | completed
deriving DecidableEq

/-- One `Route` document (`routeSchema`). The driver reference is stored as
its id string. -/
structure Route where
  name : String
  driver : Option String
  stops : List Stop
  status : RouteStatus
  createdAt : Time
  totalDistance : String
  estimatedTime : String
deriving DecidableEq

/-- One `Driver` document (`driverSchema`). -/
structure Driver where
  name : String
  phone : String
  isActive : Bool
  currentRoute : Option String
deriving DecidableEq

/-- The `Route` collection as an association list from `_id` to document. -/
abbrev RouteStore := List (String × Route)

/-- The `Driver` collection as an association list from `_id` to document. -/
abbrev DriverStore := List (String × Driver)

/-- `Model.findById`: first document with the given id, if any. -/
def findRoute : RouteStore → String → Option Route
  | [], _ => none
  | (k, v) :: rest, rid => if k = rid then some v else findRoute rest rid

def findDriver : DriverStore → String → Option Driver
  | [], _ => none
  | (k, v) :: rest, did => if k = did then some v else findDriver rest did

/-- `route.save()` after mutating a document obtained by `findById`:
replace the first document with that id. -/
def updateRoute : RouteStore → String → Route → RouteStore
  | [], _, _ => []
  | (k, v) :: rest, rid, r => if k = rid then (k, r) :: rest else (k, v) :: updateRoute rest rid r

/-- `Driver.findByIdAndUpdate(driverId, \x7b isActive: true \x7d)`. -/
def setActive : DriverStore → String → DriverStore
  | [], _ => []
  | (k, d) :: rest, did =>
      if k = did then (k, { d with isActive := true }) :: rest
      else (k, d) :: setActive rest did

/-- `Driver.findByIdAndUpdate(driverId, \x7b currentRoute: route._id \x7d)`. -/
def setCurrentRoute : DriverStore → String → String → DriverStore
  | [], _, _ => []
  | (k, d) :: rest, did, rid =>
      if k = did then (k, { d with currentRoute := some rid }) :: rest
      else (k, d) :: setCurrentRoute rest did rid

/-- The two assignments `route.stops[stopIndex].status = 'completed'` and
`route.stops[stopIndex].completedAt = new Date()` applied to the stop at
position `i` (out-of-range leaves the list unchanged, though the handlers
only call this in range). -/
def completeAt : List Stop → Nat → Time → List Stop
  | [], _, _ => []
  | s :: rest, 0, now => { s with status := .completed, completedAt := some now } :: rest
  | s :: rest, n + 1, now => s :: completeAt rest n now

/-- The whole in-memory server state: the three MongoDB collections. -/
structure ServerState where
  locations : PositionLog
  drivers : DriverStore
  routes : RouteStore
deriving DecidableEq

/-! ## Handlers -/

/-- A `driver-location` broadcast payload. -/
structure LocationDelta where
  driverId : String
  lat : ℚ
  lng : ℚ
  timestamp : Time
deriving DecidableEq

/-- A `stop-update` broadcast payload (status is always the literal
`completed`). -/
structure StopDelta where
  routeId : String
  stopIndex : Int
deriving DecidableEq

/-- `socket.on('location-update')` in src/server.js lines 66-93: saves the
location (server-assigned timestamp), marks the driver active, and emits one
`driver-location` delta. No validation is performed. -/
def locationUpdate (st : ServerState) (driverId : String) (lat lng : Coord)
    (now : Time) : ServerState × List LocationDelta :=
  ({ st with
      locations := st.locations ++ [⟨driverId, lat, lng, now⟩],
      drivers := setActive st.drivers driverId },
   [⟨driverId, parseFloat lat, parseFloat lng, now⟩])

/-- The guard `!lat || !lng || isNaN(lat) || isNaN(lng)` of the validated
handler in src/README.md. -/
def rejectedByValidation (lat lng : Coord) : Bool :=
  jsFalsy lat || jsFalsy lng || jsIsNaN lat || jsIsNaN lng

/-- `socket.on('location-update')` in the validated variant of
src/README.md lines 515-552: rejects the event (returns without touching any
state and without broadcasting) when `!lat || !lng || isNaN(lat) ||
isNaN(lng)`; otherwise stores `parseFloat`-normalised coordinates, marks the
driver active and emits one delta. -/
def locationUpdateV (st : ServerState) (driverId : String) (lat lng : Coord)
    (now : Time) : ServerState × List LocationDelta :=
  if rejectedByValidation lat lng then (st, [])
  else
    ({ st with
        locations := st.locations ++ [⟨driverId, .num (parseFloat lat), .num (parseFloat lng), now⟩],
        drivers := setActive st.drivers driverId },
     [⟨driverId, parseFloat lat, parseFloat lng, now⟩])

/-- `socket.on('stop-completed')` in src/server.js lines 96-116: if
`route && route.stops[stopIndex]` (the route exists and the index is inside
`[0, stops.length)`), mark that stop completed at the current server time,
save, and emit one `stop-update` delta; otherwise do nothing silently. -/
def stopCompleted (st : ServerState) (routeId : String) (stopIndex : Int)
    (now : Time) : ServerState × List StopDelta :=
  match findRoute st.routes routeId with
  | none => (st, [])
  | some r =>
      if 0 ≤ stopIndex ∧ stopIndex.toNat < r.stops.length then
        let r2 := { r with stops := completeAt r.stops stopIndex.toNat now }
        ({ st with routes := updateRoute st.routes routeId r2 }, [⟨routeId, stopIndex⟩])
      else (st, [])

/-- The JSON response of the completion endpoint: `\x7b success: true \x7d`
or the 404 body `\x7b error: 'Route or stop not found' \x7d`. -/
inductive ApiResponse where
  | ok
  | notFound
deriving DecidableEq

/-- `POST /api/routes/:routeId/stops/:stopIndex/complete` in src/server.js
lines 217-234: same guard and mutation as the socket handler, but answers
with a JSON response and does not broadcast. -/
def completeStopApi (st : ServerState) (routeId : String) (stopIndex : Int)
    (now : Time) : ServerState × ApiResponse :=
  match findRoute st.routes routeId with
  | none => (st, .notFound)
  | some r =>
      if 0 ≤ stopIndex ∧ stopIndex.toNat < r.stops.length then
        let r2 := { r with stops := completeAt r.stops stopIndex.toNat now }
        ({ st with routes := updateRoute st.routes routeId r2 }, .ok)
      else (st, .notFound)

/-- An address together with the mock coordinates the route-creation endpoint
attaches to it (`Math.random()`-based in the source, hence supplied here as
an oracle input). -/
structure GeoAddr where
  address : String
  lat : ℚ
  lng : ℚ
deriving DecidableEq

/-- `addresses.map((address, index) => ...)`: build the stop list, pending
with no `completedAt`, sequenceOrder = index. -/
def mkStops : Nat → List GeoAddr → List Stop
  | _, [] => []
  | i, a :: rest => ⟨a.address, a.lat, a.lng, i, .pending, none⟩ :: mkStops (i + 1) rest

/-- `POST /api/routes` in src/server.js lines 147-178: create the route
(status defaults to pending, mock distance/time strings) and point the
driver's `currentRoute` at it. `rid` models the fresh Mongo `_id`. -/
def createRoute (st : ServerState) (rid name driverId : String)
    (addrs : List GeoAddr) (now : Time) : ServerState :=
  { st with
      routes := st.routes ++
        [(rid, ⟨name, some driverId, mkStops 0 addrs, .pending, now, "25.4 miles", "2h 15m"⟩)],
      drivers := setCurrentRoute st.drivers driverId rid }

/-- `POST /api/drivers` in src/server.js lines 190-199: create a driver
(isActive defaults to false, no current route). -/
def createDriver (st : ServerState) (did name phone : String) : ServerState :=
  { st with drivers := st.drivers ++ [(did, ⟨name, phone, false, none⟩)] }

/-- `socket.broadcast.emit` (src/server.js lines 82-87 and 107-111): the
delta reaches every connected session except the socket that sent the
triggering event. -/
def broadcastRecipients (sessions : List String) (sender : String) : List String :=
  sessions.filter (fun s => s ≠ sender)

/-! ## Derived accessors and invariant definitions -/

/-- `route.stops[i]` as an `Option`-returning accessor on the whole state. -/
def getStop (st : ServerState) (rid : String) (i : Nat) : Option Stop :=
  match findRoute st.routes rid with
  | none => none
  | some r => r.stops.get? i

/-- The Stop invariant of the data model: `completedAt` is non-null iff
`status = completed`. -/
def stopOk (s : Stop) : Prop := s.completedAt ≠ none ↔ s.status = .completed

/-- Every stop of every stored route satisfies the Stop invariant. -/
def routesOk (st : ServerState) : Prop :=
  ∀ p ∈ st.routes, ∀ s ∈ p.2.stops, stopOk s

/-- States reachable from the empty database through the server's
operations. -/
inductive Reachable : ServerState → Prop where
  | init : Reachable ⟨[], [], []⟩
  | newDriver (st : ServerState) (did name phone : String) :
      Reachable st → Reachable (createDriver st did name phone)
  | newRoute (st : ServerState) (rid name driverId : String)
      (addrs : List GeoAddr) (now : Time) :
      Reachable st → Reachable (createRoute st rid name driverId addrs now)
  | locUpdate (st : ServerState) (driverId : String) (lat lng : Coord)
      (now : Time) :
      Reachable st → Reachable (locationUpdate st driverId lat lng now).1
  | locUpdateV (st : ServerState) (driverId : String) (lat lng : Coord)
      (now : Time) :
      Reachable st → Reachable (locationUpdateV st driverId lat lng now).1
  | stopDone (st : ServerState) (routeId : String) (stopIndex : Int)
      (now : Time) :
      Reachable st → Reachable (stopCompleted st routeId stopIndex now).1
  | stopDoneApi (st : ServerState) (routeId : String) (stopIndex : Int)
      (now : Time) :
      Reachable st → Reachable (completeStopApi st routeId stopIndex now).1

/-! ## Concrete states used by witnesses and counterexamples -/

def exStop1 : Stop := ⟨"a1", 1, 2, 0, .pending, none⟩

def exRoute1 : Route :=
  ⟨"Route 1", some "d1", [exStop1], .pending, 0, "25.4 miles", "2h 15m"⟩

/-- A state holding one route `r1` with a single pending stop. -/
def exSt2 : ServerState := ⟨[], [], [("r1", exRoute1)]⟩

def exStopC : Stop := ⟨"a1", 1, 2, 0, .completed, some 5⟩

def exRouteC : Route :=
  ⟨"Route 1", some "d1", [exStopC], .pending, 0, "25.4 miles", "2h 15m"⟩

def exRoute6 : Route :=
  ⟨"Route 6", some "d2", [⟨"b1", 3, 4, 0, .pending, none⟩], .pending, 0,
    "25.4 miles", "2h 15m"⟩

/-- A state holding one route `r6` whose stop differs from the one in
`exSt2`. -/
def exSt6 : ServerState := ⟨[], [], [("r6", exRoute6)]⟩

def exDriver1 : Driver := ⟨"Ann", "555", false, none⟩

/-- A state holding one inactive driver `d1`. -/
def exStD : ServerState := ⟨[], [("d1", exDriver1)], []⟩

/-! ## Lemmas about the latest-positions aggregation -/

theorem mem_insertByTs (r x : LocationRec) (l : PositionLog) :
    x ∈ insertByTs r l ↔ x = r ∨ x ∈ l := by
  induction l with
  | nil => simp [insertByTs]
  | cons b bs ih =>
      by_cases h : r.timestamp < b.timestamp
      · simp only [insertByTs, if_pos h, List.mem_cons, ih]
        tauto
      · simp only [insertByTs, if_neg h, List.mem_cons]

theorem pairwise_insertByTs (r : LocationRec) (l : PositionLog)
    (h : l.Pairwise (fun a b => b.timestamp ≤ a.timestamp)) :
    (insertByTs r l).Pairwise (fun a b => b.timestamp ≤ a.timestamp) := by
  induction l with
  | nil => simp [insertByTs]
  | cons b bs ih =>
      rcases List.pairwise_cons.mp h with ⟨hb, hbs⟩
      by_cases hlt : r.timestamp < b.timestamp
      · simp only [insertByTs, if_pos hlt]
        refine List.pairwise_cons.mpr ⟨?_, ih hbs⟩
        intro x hx
        rcases (mem_insertByTs r x bs).mp hx with rfl | hx2
        · exact le_of_lt hlt
        · exact hb x hx2
      · simp only [insertByTs, if_neg hlt]
        refine List.pairwise_cons.mpr ⟨?_, h⟩
        intro x hx
        rcases List.mem_cons.mp hx with rfl | hx2
        · exact le_of_not_lt hlt
        · exact le_trans (hb x hx2) (le_of_not_lt hlt)

theorem mem_sortByTsDesc (x : LocationRec) (l : PositionLog) :
    x ∈ sortByTsDesc l ↔ x ∈ l := by
  induction l with
  | nil => simp [sortByTsDesc]
  | cons r rs ih => simp [sortByTsDesc, mem_insertByTs, ih]

theorem pairwise_sortByTsDesc (l : PositionLog) :
    (sortByTsDesc l).Pairwise (fun a b => b.timestamp ≤ a.timestamp) := by
  induction l with
  | nil => simp [sortByTsDesc]
  | cons r rs ih => exact pairwise_insertByTs r _ ih

theorem mem_of_mem_groupFirstAux {x : LocationRec} (seen : List String)
    (l : PositionLog) : x ∈ groupFirstAux seen l → x ∈ l := by
  induction l generalizing seen with
  | nil => simp [groupFirstAux]
  | cons r rs ih =>
      intro hx
      simp only [groupFirstAux] at hx
      by_cases h : r.driverId ∈ seen
      · rw [if_pos h] at hx
        exact List.mem_cons_of_mem _ (ih seen hx)
      · rw [if_neg h] at hx
        rcases List.mem_cons.mp hx with rfl | hx2
        · exact List.mem_cons_self _ _
        · exact List.mem_cons_of_mem _ (ih _ hx2)

theorem groupFirstAux_driverId_not_seen {x : LocationRec} (seen : List String)
    (l : PositionLog) : x ∈ groupFirstAux seen l → x.driverId ∉ seen := by
  induction l generalizing seen with
  | nil => simp [groupFirstAux]
  | cons r rs ih =>
      intro hx
      simp only [groupFirstAux] at hx
      by_cases h : r.driverId ∈ seen
      · rw [if_pos h] at hx
        exact ih seen hx
      · rw [if_neg h] at hx
        rcases List.mem_cons.mp hx with rfl | hx2
        · exact h
        · intro hc
          exact ih _ hx2 (List.mem_cons_of_mem _ hc)

theorem groupFirstAux_max {e x : LocationRec} (seen : List String)
    (l : PositionLog) (hp : l.Pairwise (fun a b => b.timestamp ≤ a.timestamp))
    (he : e ∈ groupFirstAux seen l) (hx : x ∈ l)
    (hid : x.driverId = e.driverId) : x.timestamp ≤ e.timestamp := by
  induction l generalizing seen with
  | nil => exact absurd hx (List.not_mem_nil x)
  | cons r rs ih =>
      rcases List.pairwise_cons.mp hp with ⟨hr, hrs⟩
      simp only [groupFirstAux] at he
      by_cases h : r.driverId ∈ seen
      · rw [if_pos h] at he
        rcases List.mem_cons.mp hx with rfl | hx2
        · exfalso
          apply groupFirstAux_driverId_not_seen seen rs he
          rw [← hid]
          exact h
        · exact ih seen hrs he hx2
      · rw [if_neg h] at he
        rcases List.mem_cons.mp he with rfl | he2
        · rcases List.mem_cons.mp hx with rfl | hx2
          · exact le_refl _
          · exact hr x hx2
        · rcases List.mem_cons.mp hx with rfl | hx2
          · exfalso
            apply groupFirstAux_driverId_not_seen _ rs he2
            rw [← hid]
            exact List.mem_cons_self _ _
          · exact ih _ hrs he2 hx2

theorem groupFirstAux_keys {d : String} (seen : List String) (l : PositionLog)
    (hd : d ∉ seen) :
    (∃ e ∈ groupFirstAux seen l, e.driverId = d) ↔ ∃ x ∈ l, x.driverId = d := by
  induction l generalizing seen with
  | nil => simp [groupFirstAux]
  | cons r rs ih =>
      simp only [groupFirstAux]
      by_cases h : r.driverId ∈ seen
      · rw [if_pos h, ih seen hd]
        constructor
        · rintro ⟨x, hx, hxd⟩
          exact ⟨x, List.mem_cons_of_mem _ hx, hxd⟩
        · rintro ⟨x, hx, hxd⟩
          rcases List.mem_cons.mp hx with rfl | hx2
          · exact absurd (hxd ▸ h) hd
          · exact ⟨x, hx2, hxd⟩
      · rw [if_neg h]
        by_cases hrd : r.driverId = d
        · constructor
          · intro _
            exact ⟨r, List.mem_cons_self _ _, hrd⟩
          · intro _
            exact ⟨r, List.mem_cons_self _ _, hrd⟩
        · have hd2 : d ∉ r.driverId :: seen := by
            intro hc
            rcases List.mem_cons.mp hc with rfl | hc2
            · exact hrd rfl
            · exact hd hc2
          constructor
          · rintro ⟨e, he, hed⟩
            rcases List.mem_cons.mp he with rfl | he2
            · exact absurd hed hrd
            · rcases (ih _ hd2).mp ⟨e, he2, hed⟩ with ⟨x, hx, hxd⟩
              exact ⟨x, List.mem_cons_of_mem _ hx, hxd⟩
          · rintro ⟨x, hx, hxd⟩
            rcases List.mem_cons.mp hx with rfl | hx2
            · exact absurd hxd hrd
            · rcases (ih _ hd2).mpr ⟨x, hx2, hxd⟩ with ⟨e, he, hed⟩
              exact ⟨e, List.mem_cons_of_mem _ he, hed⟩

theorem groupFirstAux_keys_nodup (seen : List String) (l : PositionLog) :
    (groupFirstAux seen l).Pairwise (fun a b => a.driverId ≠ b.driverId) := by
  induction l generalizing seen with
  | nil => simp [groupFirstAux]
  | cons r rs ih =>
      simp only [groupFirstAux]
      by_cases h : r.driverId ∈ seen
      · rw [if_pos h]
        exact ih seen
      · rw [if_neg h]
        refine List.pairwise_cons.mpr ⟨?_, ih _⟩
        intro e he heq
        apply groupFirstAux_driverId_not_seen _ rs he
        rw [← heq]
        exact List.mem_cons_self _ _

/-! ## Lemmas about stop completion and the stores -/

theorem length_completeAt (l : List Stop) (i : Nat) (now : Time) :
    (completeAt l i now).length = l.length := by
  induction l generalizing i with
  | nil => simp [completeAt]
  | cons s rest ih =>
      cases i with
      | zero => simp [completeAt]
      | succ n => simp [completeAt, ih]

theorem get?_completeAt_self (l : List Stop) (i : Nat) (now : Time) :
    (completeAt l i now).get? i =
      (l.get? i).map
        (fun s => { s with status := .completed, completedAt := some now }) := by
  induction l generalizing i with
  | nil => simp [completeAt]
  | cons s rest ih =>
      cases i with
      | zero => simp [completeAt]
      | succ n => simpa [completeAt] using ih n

theorem get?_completeAt_other (l : List Stop) (i j : Nat) (now : Time)
    (h : j ≠ i) : (completeAt l i now).get? j = l.get? j := by
  induction l generalizing i j with
  | nil => simp [completeAt]
  | cons s rest ih =>
      cases i with
      | zero =>
          cases j with
          | zero => exact absurd rfl h
          | succ m => simp [completeAt]
      | succ n =>
          cases j with
          | zero => simp [completeAt]
          | succ m =>
              simpa [completeAt] using ih n m (fun hc => h (by rw [hc]))

theorem mem_completeAt {s : Stop} (l : List Stop) (i : Nat) (now : Time)
    (hs : s ∈ completeAt l i now) :
    s ∈ l ∨ ∃ s0 ∈ l, s = { s0 with status := .completed, completedAt := some now } := by
  induction l generalizing i with
  | nil => simp [completeAt] at hs
  | cons s0 rest ih =>
      cases i with
      | zero =>
          simp only [completeAt] at hs
          rcases List.mem_cons.mp hs with rfl | h2
          · exact Or.inr ⟨s0, List.mem_cons_self _ _, rfl⟩
          · exact Or.inl (List.mem_cons_of_mem _ h2)
      | succ n =>
          simp only [completeAt] at hs
          rcases List.mem_cons.mp hs with rfl | h2
          · exact Or.inl (List.mem_cons_self _ _)
          · rcases ih n h2 with h3 | ⟨t, ht, rfl⟩
            · exact Or.inl (List.mem_cons_of_mem _ h3)
            · exact Or.inr ⟨t, List.mem_cons_of_mem _ ht, rfl⟩

theorem findRoute_updateRoute_self (store : RouteStore) (rid : String)
    (r r2 : Route) (h : findRoute store rid = some r) :
    findRoute (updateRoute store rid r2) rid = some r2 := by
  induction store with
  | nil => simp [findRoute] at h
  | cons p rest ih =>
      obtain ⟨k, v⟩ := p
      by_cases hk : k = rid
      · subst hk
        simp [findRoute, updateRoute]
      · simp only [findRoute, updateRoute, if_neg hk] at h ⊢
        exact ih h

theorem findRoute_updateRoute_other (store : RouteStore) (rid rid2 : String)
    (r2 : Route) (h : rid2 ≠ rid) :
    findRoute (updateRoute store rid r2) rid2 = findRoute store rid2 := by
  induction store with
  | nil => simp [updateRoute, findRoute]
  | cons p rest ih =>
      obtain ⟨k, v⟩ := p
      by_cases hk : k = rid
      · subst hk
        have hne : ¬ k = rid2 := fun hc => h hc.symm
        simp [updateRoute, findRoute, hne]
      · simp only [updateRoute, if_neg hk, findRoute]
        by_cases hk2 : k = rid2
        · simp [hk2]
        · simp [hk2, ih]

theorem mem_updateRoute {q : String × Route} (store : RouteStore) (rid : String)
    (r2 : Route) (hq : q ∈ updateRoute store rid r2) :
    q.2 = r2 ∨ q ∈ store := by
  induction store with
  | nil => simp [updateRoute] at hq
  | cons p rest ih =>
      obtain ⟨k, v⟩ := p
      by_cases hk : k = rid
      · simp only [updateRoute, if_pos hk] at hq
        rcases List.mem_cons.mp hq with rfl | h2
        · exact Or.inl rfl
        · exact Or.inr (List.mem_cons_of_mem _ h2)
      · simp only [updateRoute, if_neg hk] at hq
        rcases List.mem_cons.mp hq with rfl | h2
        · exact Or.inr (List.mem_cons_self _ _)
        · rcases ih h2 with h3 | h3
          · exact Or.inl h3
          · exact Or.inr (List.mem_cons_of_mem _ h3)

theorem findRoute_mem (store : RouteStore) (rid : String) (r : Route)
    (h : findRoute store rid = some r) : (rid, r) ∈ store := by
  induction store with
  | nil => simp [findRoute] at h
  | cons p rest ih =>
      obtain ⟨k, v⟩ := p
      by_cases hk : k = rid
      · subst hk
        simp [findRoute] at h
        subst h
        exact List.mem_cons_self _ _
      · simp only [findRoute, if_neg hk] at h
        exact List.mem_cons_of_mem _ (ih h)

theorem findDriver_setActive_self (ds : DriverStore) (did : String) (d : Driver)
    (h : findDriver ds did = some d) :
    findDriver (setActive ds did) did = some { d with isActive := true } := by
  induction ds with
  | nil => simp [findDriver] at h
  | cons p rest ih =>
      obtain ⟨k, v⟩ := p
      by_cases hk : k = did
      · subst hk
        simp [findDriver] at h
        subst h
        simp [setActive, findDriver]
      · simp only [findDriver, if_neg hk] at h
        simp only [setActive, if_neg hk, findDriver]
        exact ih h

/-! ## The stop invariant on reachable states -/

theorem stopOk_mkStops (i : Nat) (addrs : List GeoAddr) :
    ∀ s ∈ mkStops i addrs, stopOk s := by
  induction addrs generalizing i with
  | nil => simp [mkStops]
  | cons a rest ih =>
      intro s hs
      simp only [mkStops] at hs
      rcases List.mem_cons.mp hs with rfl | h2
      · simp [stopOk]
      · exact ih (i + 1) s h2

theorem stopOk_completeAt (l : List Stop) (i : Nat) (now : Time)
    (h : ∀ s ∈ l, stopOk s) : ∀ s ∈ completeAt l i now, stopOk s := by
  intro s hs
  rcases mem_completeAt l i now hs with h2 | ⟨t, _, rfl⟩
  · exact h s h2
  · simp [stopOk]

theorem routesOk_stopCompleted (st : ServerState) (rid : String) (i : Int)
    (now : Time) (h : routesOk st) : routesOk (stopCompleted st rid i now).1 := by
  cases hf : findRoute st.routes rid with
  | none => simpa [stopCompleted, hf] using h
  | some r =>
      by_cases hi : 0 ≤ i ∧ i.toNat < r.stops.length
      · simp only [stopCompleted, hf, if_pos hi]
        intro p hp s hs
        rcases mem_updateRoute st.routes rid _ hp with h2 | h2
        · rw [h2] at hs
          exact stopOk_completeAt r.stops i.toNat now
            (fun s2 hs2 => h (rid, r) (findRoute_mem _ _ _ hf) s2 hs2) s hs
        · exact h p h2 s hs
      · simpa [stopCompleted, hf, hi] using h

theorem routesOk_completeStopApi (st : ServerState) (rid : String) (i : Int)
    (now : Time) (h : routesOk st) : routesOk (completeStopApi st rid i now).1 := by
  cases hf : findRoute st.routes rid with
  | none => simpa [completeStopApi, hf] using h
  | some r =>
      by_cases hi : 0 ≤ i ∧ i.toNat < r.stops.length
      · simp only [completeStopApi, hf, if_pos hi]
        intro p hp s hs
        rcases mem_updateRoute st.routes rid _ hp with h2 | h2
        · rw [h2] at hs
          exact stopOk_completeAt r.stops i.toNat now
            (fun s2 hs2 => h (rid, r) (findRoute_mem _ _ _ hf) s2 hs2) s hs
        · exact h p h2 s hs
      · simpa [completeStopApi, hf, hi] using h

theorem routesOk_createRoute (st : ServerState) (rid name driverId : String)
    (addrs : List GeoAddr) (now : Time) (h : routesOk st) :
    routesOk (createRoute st rid name driverId addrs now) := by
  intro p hp s hs
  simp only [createRoute] at hp
  rcases List.mem_append.mp hp with h2 | h2
  · exact h p h2 s hs
  · rcases List.mem_singleton.mp h2 with rfl
    exact stopOk_mkStops 0 addrs s hs

/-! ## Claim theorems -/

/-- C1 (amended): every entry the latest-positions query returns for an
agent is one of the reports ingested for that agent and carries the maximum
timestamp among all of that agent's reports; no particular tie-breaking
order among equal maximum timestamps is guaranteed. -/
theorem latestAll_entry_is_max (log : PositionLog) (e : LocationRec)
    (he : e ∈ latestAll log) :
    e ∈ log ∧ ∀ x ∈ log, x.driverId = e.driverId → x.timestamp ≤ e.timestamp := by
  constructor
  · exact (mem_sortByTsDesc e log).mp (mem_of_mem_groupFirstAux [] _ he)
  · intro x hx hid
    exact groupFirstAux_max [] _ (pairwise_sortByTsDesc log) he
      ((mem_sortByTsDesc x log).mpr hx) hid

/-- C1 witness: on a two-report log the returned entry for agent `a` is the
stored report with the larger timestamp. -/
theorem latestAll_entry_is_max_witness :
    (⟨"a", .num 2, .num 2, 9⟩ : LocationRec) ∈
      latestAll [⟨"a", .num 1, .num 1, 5⟩, ⟨"a", .num 2, .num 2, 9⟩] ∧
    ((⟨"a", .num 2, .num 2, 9⟩ : LocationRec) ∈
        ([⟨"a", .num 1, .num 1, 5⟩, ⟨"a", .num 2, .num 2, 9⟩] : PositionLog) ∧
      ∀ x ∈ ([⟨"a", .num 1, .num 1, 5⟩, ⟨"a", .num 2, .num 2, 9⟩] : PositionLog),
        x.driverId = (⟨"a", .num 2, .num 2, 9⟩ : LocationRec).driverId →
        x.timestamp ≤ (⟨"a", .num 2, .num 2, 9⟩ : LocationRec).timestamp) :=
  ⟨by decide, latestAll_entry_is_max _ _ (by decide)⟩

/-- C1 counterexample: two reports for agent `a` carry the same timestamp;
last-applied-wins would return the second report, but the query returns the
first one. -/
theorem latestAll_tie_not_last_applied :
    latestAll [⟨"a", .num 1, .num 1, 5⟩, ⟨"a", .num 2, .num 2, 5⟩] =
      [⟨"a", .num 1, .num 1, 5⟩] ∧
    (⟨"a", .num 1, .num 1, 5⟩ : LocationRec) ≠ ⟨"a", .num 2, .num 2, 5⟩ := by
  decide

/-- C2 (amended): a repeated completion of an already-completed stop still
succeeds, but it overwrites the stored completedAt with the repeat call's
timestamp (last-writer-wins) and emits another stop-update broadcast
delta. -/
theorem stopCompleted_repeat_overwrites (st : ServerState) (rid : String)
    (i : Int) (now : Time) (r : Route) (s : Stop)
    (hr : findRoute st.routes rid = some r)
    (h0 : 0 ≤ i) (hlen : i.toNat < r.stops.length)
    (hs : r.stops.get? i.toNat = some s) (hc : s.status = .completed) :
    (stopCompleted st rid i now).2 = [⟨rid, i⟩] ∧
    getStop (stopCompleted st rid i now).1 rid i.toNat =
      some { s with status := .completed, completedAt := some now } := by
  have hcond : 0 ≤ i ∧ i.toNat < r.stops.length := ⟨h0, hlen⟩
  constructor
  · simp [stopCompleted, hr, hcond]
  · simp only [stopCompleted, hr, if_pos hcond]
    unfold getStop
    rw [findRoute_updateRoute_self st.routes rid r _ hr]
    simp only []
    rw [get?_completeAt_self, hs]
    rfl

/-- C2 witness: completing the already-completed stop of `exRouteC` again at
time 9 yields the overwritten timestamp and a fresh delta. -/
theorem stopCompleted_repeat_overwrites_witness :
    findRoute (⟨[], [], [("r1", exRouteC)]⟩ : ServerState).routes "r1" = some exRouteC ∧
    (0 : Int) ≤ 0 ∧ (0 : Int).toNat < exRouteC.stops.length ∧
    exRouteC.stops.get? (0 : Int).toNat = some exStopC ∧
    exStopC.status = .completed ∧
    ((stopCompleted ⟨[], [], [("r1", exRouteC)]⟩ "r1" 0 9).2 = [⟨"r1", 0⟩] ∧
      getStop (stopCompleted ⟨[], [], [("r1", exRouteC)]⟩ "r1" 0 9).1 "r1" (0 : Int).toNat =
        some { exStopC with status := .completed, completedAt := some 9 }) :=
  ⟨by decide, by decide, by decide, by decide, by decide,
    stopCompleted_repeat_overwrites _ "r1" 0 9 exRouteC exStopC (by decide)
      (by decide) (by decide) (by decide) (by decide)⟩

/-- C2 counterexample: after completing stop 0 of `r1` at time 5 and again at
time 9, the stored completedAt is 9 (the original 5 is lost) and the second
call emits another stop-update delta. -/
theorem stopCompleted_not_idempotent_cex :
    getStop (stopCompleted exSt2 "r1" 0 5).1 "r1" 0 =
      some ⟨"a1", 1, 2, 0, .completed, some 5⟩ ∧
    getStop (stopCompleted (stopCompleted exSt2 "r1" 0 5).1 "r1" 0 9).1 "r1" 0 =
      some ⟨"a1", 1, 2, 0, .completed, some 9⟩ ∧
    (stopCompleted (stopCompleted exSt2 "r1" 0 5).1 "r1" 0 9).2 = [⟨"r1", 0⟩] := by
  decide

/-- C3 (amended): the validated ingestion handler rejects exactly the events
whose lat or lng is falsy (including 0) or NaN; a rejected event is never
stored and never appears in latestAll. Finite out-of-range coordinates such
as lat = 200 are not rejected. -/
theorem locationUpdateV_rejected_not_stored (st : ServerState) (d : String)
    (lat lng : Coord) (now : Time)
    (h : rejectedByValidation lat lng = true) :
    locationUpdateV st d lat lng now = (st, []) ∧
    latestAll (locationUpdateV st d lat lng now).1.locations =
      latestAll st.locations := by
  constructor
  · simp [locationUpdateV, h]
  · simp [locationUpdateV, h]

/-- C3 witness: a NaN latitude is rejected and leaves the store and the
latest-positions view unchanged. -/
theorem locationUpdateV_rejected_not_stored_witness :
    rejectedByValidation Coord.nan (.num 10) = true ∧
    (locationUpdateV ⟨[], [], []⟩ "d1" Coord.nan (.num 10) 7 = (⟨[], [], []⟩, []) ∧
      latestAll (locationUpdateV ⟨[], [], []⟩ "d1" Coord.nan (.num 10) 7).1.locations =
        latestAll (⟨[], [], []⟩ : ServerState).locations) :=
  ⟨by decide, locationUpdateV_rejected_not_stored _ "d1" _ _ 7 (by decide)⟩

/-- C3 counterexample: lat = 200 is outside [-90, 90] but passes the
`!lat || !lng || isNaN` guard, is stored, and appears in latestAll. -/
theorem locationUpdateV_out_of_range_accepted_cex :
    rejectedByValidation (.num 200) (.num 10) = false ∧
    (locationUpdateV ⟨[], [], []⟩ "d1" (.num 200) (.num 10) 7).1.locations =
      [⟨"d1", .num 200, .num 10, 7⟩] ∧
    latestAll (locationUpdateV ⟨[], [], []⟩ "d1" (.num 200) (.num 10) 7).1.locations =
      [⟨"d1", .num 200, .num 10, 7⟩] ∧
    (locationUpdateV ⟨[], [], []⟩ "d1" (.num 200) (.num 10) 7).2 =
      [⟨"d1", 200, 10, 7⟩] := by
  decide

/-- C4 (amended): when the routeId is unknown, or the stopIndex is outside
[0, stops.length), the completion endpoint answers with the single
undifferentiated 404 body (Route or stop not found) rather than distinct
RouteNotFound / StopIndexOutOfRange errors, and in either failure case no
state is modified and no broadcast delta is emitted. -/
theorem completeStop_fail_no_change (st : ServerState) (rid : String)
    (i : Int) (now : Time)
    (h : findRoute st.routes rid = none ∨
      ∃ r, findRoute st.routes rid = some r ∧ ¬(0 ≤ i ∧ i.toNat < r.stops.length)) :
    completeStopApi st rid i now = (st, .notFound) ∧
    stopCompleted st rid i now = (st, []) := by
  rcases h with h | ⟨r, hr, hi⟩
  · constructor <;> simp [completeStopApi, stopCompleted, h]
  · constructor <;> simp [completeStopApi, stopCompleted, hr, hi]

/-- C4 witness: an unknown routeId makes both completion handlers fail with
no state change and no delta. -/
theorem completeStop_fail_no_change_witness :
    (findRoute exSt2.routes "ghost" = none ∨
      ∃ r, findRoute exSt2.routes "ghost" = some r ∧
        ¬((0 : Int) ≤ 0 ∧ (0 : Int).toNat < r.stops.length)) ∧
    (completeStopApi exSt2 "ghost" 0 5 = (exSt2, .notFound) ∧
      stopCompleted exSt2 "ghost" 0 5 = (exSt2, [])) :=
  ⟨Or.inl (by decide), completeStop_fail_no_change exSt2 "ghost" 0 5 (Or.inl (by decide))⟩

/-- C4 counterexample: the unknown-route failure and the out-of-range
failure produce the identical response, so the code does not distinguish
RouteNotFound from StopIndexOutOfRange. -/
theorem completeStop_errors_indistinct_cex :
    (completeStopApi exSt2 "ghost" 0 5).2 = .notFound ∧
    (completeStopApi exSt2 "r1" 5 5).2 = .notFound ∧
    (completeStopApi exSt2 "ghost" 0 5).2 = (completeStopApi exSt2 "r1" 5 5).2 := by
  decide

/-- C5: the latest-positions query returns pairwise-distinct agentIds, and
an agent has an entry exactly when it has at least one stored report. -/
theorem latestAll_one_entry_per_agent (log : PositionLog) :
    (latestAll log).Pairwise (fun a b => a.driverId ≠ b.driverId) ∧
    ∀ d : String,
      (∃ e ∈ latestAll log, e.driverId = d) ↔ ∃ x ∈ log, x.driverId = d := by
  constructor
  · exact groupFirstAux_keys_nodup [] _
  · intro d
    simp only [latestAll, groupFirstByDriver]
    rw [groupFirstAux_keys [] (sortByTsDesc log) (List.not_mem_nil d)]
    constructor
    · rintro ⟨x, hx, hxd⟩
      exact ⟨x, (mem_sortByTsDesc x log).mp hx, hxd⟩
    · rintro ⟨x, hx, hxd⟩
      exact ⟨x, (mem_sortByTsDesc x log).mpr hx, hxd⟩

/-- C6 (amended): completing a pending in-range stop answers with the
constant success body (not the updated Stop), marks exactly that stop
completed at the operation time, and leaves every other stop, the stop
order, the other route fields, the other routes, the location log and the
drivers unchanged. -/
theorem completeStopApi_pending (st : ServerState) (rid : String) (i : Int)
    (now : Time) (r : Route) (s : Stop)
    (hr : findRoute st.routes rid = some r)
    (h0 : 0 ≤ i) (hlen : i.toNat < r.stops.length)
    (hs : r.stops.get? i.toNat = some s) (hp : s.status = .pending) :
    (completeStopApi st rid i now).2 = .ok ∧
    findRoute (completeStopApi st rid i now).1.routes rid =
      some { r with stops := completeAt r.stops i.toNat now } ∧
    (completeAt r.stops i.toNat now).get? i.toNat =
      some { s with status := .completed, completedAt := some now } ∧
    (∀ j : Nat, j ≠ i.toNat →
      (completeAt r.stops i.toNat now).get? j = r.stops.get? j) ∧
    (completeAt r.stops i.toNat now).length = r.stops.length ∧
    (∀ rid2 : String, rid2 ≠ rid →
      findRoute (completeStopApi st rid i now).1.routes rid2 =
        findRoute st.routes rid2) ∧
    (completeStopApi st rid i now).1.locations = st.locations ∧
    (completeStopApi st rid i now).1.drivers = st.drivers := by
  have hcond : 0 ≤ i ∧ i.toNat < r.stops.length := ⟨h0, hlen⟩
  refine ⟨?_, ?_, ?_, ?_, ?_, ?_, ?_, ?_⟩
  · simp [completeStopApi, hr, hcond]
  · simp only [completeStopApi, hr, if_pos hcond]
    exact findRoute_updateRoute_self st.routes rid r _ hr
  · rw [get?_completeAt_self, hs]
    rfl
  · intro j hj
    exact get?_completeAt_other _ _ _ _ hj
  · exact length_completeAt _ _ _
  · intro rid2 h2
    simp only [completeStopApi, hr, if_pos hcond]
    exact findRoute_updateRoute_other st.routes rid rid2 _ h2
  · simp [completeStopApi, hr, hcond]
  · simp [completeStopApi, hr, hcond]

/-- C6 witness: completing the pending stop of `exSt2` at time 5. -/
theorem completeStopApi_pending_witness :
    findRoute exSt2.routes "r1" = some exRoute1 ∧
    (0 : Int) ≤ 0 ∧ (0 : Int).toNat < exRoute1.stops.length ∧
    exRoute1.stops.get? (0 : Int).toNat = some exStop1 ∧
    exStop1.status = .pending ∧
    ((completeStopApi exSt2 "r1" 0 5).2 = .ok ∧
      findRoute (completeStopApi exSt2 "r1" 0 5).1.routes "r1" =
        some { exRoute1 with stops := completeAt exRoute1.stops (0 : Int).toNat 5 } ∧
      (completeAt exRoute1.stops (0 : Int).toNat 5).get? (0 : Int).toNat =
        some { exStop1 with status := .completed, completedAt := some 5 } ∧
      (∀ j : Nat, j ≠ (0 : Int).toNat →
        (completeAt exRoute1.stops (0 : Int).toNat 5).get? j =
          exRoute1.stops.get? j) ∧
      (completeAt exRoute1.stops (0 : Int).toNat 5).length = exRoute1.stops.length ∧
      (∀ rid2 : String, rid2 ≠ "r1" →
        findRoute (completeStopApi exSt2 "r1" 0 5).1.routes rid2 =
          findRoute exSt2.routes rid2) ∧
      (completeStopApi exSt2 "r1" 0 5).1.locations = exSt2.locations ∧
      (completeStopApi exSt2 "r1" 0 5).1.drivers = exSt2.drivers) :=
  ⟨by decide, by decide, by decide, by decide, by decide,
    completeStopApi_pending exSt2 "r1" 0 5 exRoute1 exStop1 (by decide)
      (by decide) (by decide) (by decide) (by decide)⟩

/-- C6 counterexample: two completions that update different stops produce
the identical success response, so the response cannot be the updated
Stop. -/
theorem completeStopApi_response_constant_cex :
    (completeStopApi exSt2 "r1" 0 5).2 = (completeStopApi exSt6 "r6" 0 7).2 ∧
    getStop (completeStopApi exSt2 "r1" 0 5).1 "r1" 0 ≠
      getStop (completeStopApi exSt6 "r6" 0 7).1 "r6" 0 := by
  decide

/-- C7: every reachable state satisfies the Stop invariant — a stop's
completedAt is non-null iff its status is completed — and it is preserved by
route creation and both stop-completion operations. -/
theorem reachable_stop_invariant (st : ServerState) (h : Reachable st) :
    routesOk st := by
  induction h with
  | init =>
      intro p hp
      simp at hp
  | newDriver st did name phone _ ih =>
      intro p hp s hs
      exact ih p hp s hs
  | newRoute st rid name driverId addrs now _ ih =>
      exact routesOk_createRoute st rid name driverId addrs now ih
  | locUpdate st driverId lat lng now _ ih =>
      intro p hp s hs
      exact ih p hp s hs
  | locUpdateV st driverId lat lng now _ ih =>
      intro p hp s hs
      by_cases hrej : rejectedByValidation lat lng
      · simp only [locationUpdateV, if_pos hrej] at hp
        exact ih p hp s hs
      · simp only [locationUpdateV, if_neg hrej] at hp
        exact ih p hp s hs
  | stopDone st routeId stopIndex now _ ih =>
      exact routesOk_stopCompleted st routeId stopIndex now ih
  | stopDoneApi st routeId stopIndex now _ ih =>
      exact routesOk_completeStopApi st routeId stopIndex now ih

/-- C7 witness: the invariant holds in the concrete state reached by
creating a route with two stops and completing its first stop. -/
theorem reachable_stop_invariant_witness :
    routesOk (stopCompleted (createRoute ⟨[], [], []⟩ "r1" "Route 1" "d1"
      [⟨"addr1", 1, 2⟩, ⟨"addr2", 3, 4⟩] 0) "r1" 0 5).1 :=
  reachable_stop_invariant _
    (Reachable.stopDone _ "r1" 0 5
      (Reachable.newRoute _ "r1" "Route 1" "d1" [⟨"addr1", 1, 2⟩, ⟨"addr2", 3, 4⟩] 0
        Reachable.init))

/-- C8 (amended): a broadcast delta is delivered to every connected session
except the one that sent the triggering event; the sender is excluded. -/
theorem broadcast_reaches_all_but_sender (sessions : List String)
    (sender s : String) (hs : s ∈ sessions) (hne : s ≠ sender) :
    s ∈ broadcastRecipients sessions sender ∧
    sender ∉ broadcastRecipients sessions sender := by
  constructor
  · refine List.mem_filter.mpr ⟨hs, ?_⟩
    simp [hne]
  · intro hc
    rcases List.mem_filter.mp hc with ⟨_, h2⟩
    simp at h2

/-- C8 witness: with sessions s1, s2 and sender s1, the delta reaches s2 and
not s1. -/
theorem broadcast_reaches_all_but_sender_witness :
    ("s2" ∈ (["s1", "s2"] : List String)) ∧ "s2" ≠ "s1" ∧
    ("s2" ∈ broadcastRecipients ["s1", "s2"] "s1" ∧
      "s1" ∉ broadcastRecipients ["s1", "s2"] "s1") :=
  ⟨by decide, by decide,
    broadcast_reaches_all_but_sender ["s1", "s2"] "s1" "s2" (by decide) (by decide)⟩

/-- C8 counterexample: session s1 is active and originates the event, yet
the broadcast recipients are exactly s2 — the sender does not receive the
delta, contradicting delivery to every active session. -/
theorem broadcast_excludes_sender_cex :
    broadcastRecipients ["s1", "s2"] "s1" = ["s2"] ∧
    ("s1" ∈ (["s1", "s2"] : List String)) ∧
    "s1" ∉ broadcastRecipients ["s1", "s2"] "s1" := by
  decide

/-- C9: an inbound position event whose lat or lng is falsy — 0, NaN or
missing — is rejected by the validated handler: no report is stored, no
driver state changes and no delta is broadcast, even though 0 is inside the
valid coordinate ranges. -/
theorem locationUpdateV_zero_rejected (st : ServerState) (d : String)
    (lat lng : Coord) (now : Time)
    (h : jsFalsy lat = true ∨ jsFalsy lng = true) :
    locationUpdateV st d lat lng now = (st, []) := by
  rcases h with h | h <;> simp [locationUpdateV, rejectedByValidation, h]

/-- C9 witness: lat = 0 with an in-range lng is rejected outright. -/
theorem locationUpdateV_zero_rejected_witness :
    (jsFalsy (Coord.num 0) = true ∨ jsFalsy (Coord.num 10) = true) ∧
    locationUpdateV ⟨[], [], []⟩ "d1" (Coord.num 0) (Coord.num 10) 7 =
      (⟨[], [], []⟩, []) :=
  ⟨Or.inl (by decide),
    locationUpdateV_zero_rejected _ "d1" _ _ 7 (Or.inl (by decide))⟩

/-- C10: every location-update additionally mutates the Driver record: the
reporting driver's isActive flag is set to true, so ingestion is not free of
side effects outside the position store. -/
theorem locationUpdate_sets_isActive (st : ServerState) (did : String)
    (lat lng : Coord) (now : Time) (d : Driver)
    (hd : findDriver st.drivers did = some d) :
    findDriver (locationUpdate st did lat lng now).1.drivers did =
      some { d with isActive := true } := by
  simp only [locationUpdate]
  exact findDriver_setActive_self st.drivers did d hd

/-- C10 witness: the inactive driver d1 becomes active after one
location-update, an observable change of the Driver record. -/
theorem locationUpdate_sets_isActive_witness :
    findDriver exStD.drivers "d1" = some exDriver1 ∧
    findDriver (locationUpdate exStD "d1" (.num 1) (.num 2) 7).1.drivers "d1" =
      some { exDriver1 with isActive := true } ∧
    ({ exDriver1 with isActive := true } : Driver) ≠ exDriver1 :=
  ⟨by decide,
    locationUpdate_sets_isActive exStD "d1" (.num 1) (.num 2) 7 exDriver1 (by decide),
    by decide⟩

end DriverLoc
